import Mathlib

/-!
Verification development for the gene-splicer contract
(src/contracts/gene-splicer/src/lib.rs).

The contract is shallowly embedded: machine integers (u8/u32/u64) are
modelled as `Nat` with explicit `% 2^w` where overflow could occur, byte
strings (`soroban_sdk::Bytes`) as `List Nat` of values `< 256`, addresses
as `Nat`, contract storage as an explicit record threaded through each
operation, and the BLS12-381 host functions of the Soroban environment as
an abstract record of oracles (`BlsHost`).  Panics become `Except` errors.
`finalize_splice` additionally records a trace of storage accesses,
length-guard checks and cryptographic host calls, mirroring the order in
which the source performs them.
-/

namespace Splicers

abbrev Byte := Nat

abbrev Address := Nat

/-- Embedding of `enum GeneRarity` (lib.rs lines 10-16). -/
inductive GeneRarity
  | Normal
  | Rare
  | Legendary
deriving DecidableEq, Repr

/-- Embedding of `struct Gene` (lib.rs lines 19-24). -/
structure Gene where
  id : Nat
  rarity : GeneRarity
deriving DecidableEq, Repr

/-- Embedding of `struct GenomeCartridge` (lib.rs lines 27-36). -/
structure GenomeCartridge where
  id : Nat
  owner : Address
  skin_id : Nat
  splice_round : Nat
  created_at : Nat
  finalized : Bool
deriving DecidableEq, Repr

/-- Embedding of `struct Creature` (lib.rs lines 39-50). -/
structure Creature where
  id : Nat
  owner : Address
  skin_id : Nat
  head_gene : Gene
  torso_gene : Gene
  legs_gene : Gene
  finalized_at : Nat
  entropy_round : Nat
deriving DecidableEq, Repr

/-- The contract's stored state, one field per `DataKey` entry
(lib.rs lines 55-66).  Map-valued keys become functions. -/
structure ContractState where
  admin : Address
  xlmToken : Address
  cartridgeSkinCount : Nat
  nextCartridgeId : Nat
  devMode : Bool
  drandPublicKey : Option (List Byte)
  cartridges : Nat → Option GenomeCartridge
  userCartridges : Address → List Nat
  creatures : Nat → Option Creature
  userCreatures : Address → List Nat

/-- Panic outcomes of the contract, one constructor per distinct panic
site in lib.rs. -/
inductive Err
  | cartridgeNotFound
  | notAuthorized
  | alreadyFinalized
  | roundMismatch
  | randomnessLength
  | signatureLength
  | sigNotInSubgroup
  | hashedNotInSubgroup
  | pubKeyNotConfigured
  | pubKeyLength
  | pubKeyByteOrder
  | pubKeyNotInSubgroup
  | pairingFailed
  | insufficientBalance
  | transferVerificationFailed
  | prngRangeEmpty
deriving DecidableEq, Repr

instance : DecidableEq (Except Err Nat)
  | .ok x, .ok y =>
    if h : x = y then .isTrue (h ▸ rfl) else .isFalse fun hh => h (Except.ok.inj hh)
  | .error x, .error y =>
    if h : x = y then .isTrue (h ▸ rfl) else .isFalse fun hh => h (Except.error.inj hh)
  | .ok _, .error _ => .isFalse fun hh => Except.noConfusion hh
  | .error _, .ok _ => .isFalse fun hh => Except.noConfusion hh

/-- Embedding of `__constructor` (lib.rs lines 93-122): validates the
public-key length and produces the freshly initialised state. -/
def constructorState (admin xlmToken : Address) (cartridgeSkinCount : Nat)
    (devMode : Bool) (drandPublicKey : List Byte) : Option ContractState :=
  if drandPublicKey.length ≠ 192 then none
  else some
    { admin := admin
      xlmToken := xlmToken
      cartridgeSkinCount := cartridgeSkinCount
      nextCartridgeId := 1
      devMode := devMode
      drandPublicKey := some drandPublicKey
      cartridges := fun _ => none
      userCartridges := fun _ => []
      creatures := fun _ => none
      userCreatures := fun _ => [] }

/-- Embedding of `select_gene` (lib.rs lines 391-427).  `entropy.get(i)`
returns `Option<u8>`, so `unwrap_or(0)` becomes `Option.getD _ 0`; the
u32 arithmetic is carried out in `Nat` with a final `% 2^32` (no inner
step can exceed 2^32 when the inputs are bytes). -/
def select_gene (entropy : List Byte) (slot : Nat) : Gene :=
  let offset := slot * 10
  let byte1 := (entropy.get? (offset % 32)).getD 0
  let byte2 := (entropy.get? ((offset + 1) % 32)).getD 0
  let byte3 := (entropy.get? ((offset + 2) % 32)).getD 0
  let byte4 := (entropy.get? ((offset + 3) % 32)).getD 0
  let random_value := ((byte1 <<< 24) ||| (byte2 <<< 16) ||| (byte3 <<< 8) ||| byte4) % 2 ^ 32
  let roll := random_value % 10
  if roll = 0 then
    { id := 3 + (random_value >>> 8) % 3, rarity := .Legendary }
  else if roll ≤ 3 then
    { id := (random_value >>> 8) % 3, rarity := .Rare }
  else
    { id := 6 + (random_value >>> 8) % 9, rarity := .Normal }

/-- The minting fee of `splice_genome`: 1 XLM = 10^7 stroops
(lib.rs line 143). -/
def feeAmount : Int := 10000000

/-- Token transfer of `fee` from `sender` to `receiver` acting on a
balance map (the external XLM token collaborator). -/
def transferBal (bal : Address → Int) (sender receiver : Address) (amount : Int) :
    Address → Int :=
  fun a =>
    let afterDebit := fun x => if x = sender then bal x - amount else bal x
    if a = receiver then afterDebit a + amount else afterDebit a

/-- Embedding of `splice_genome` (lib.rs lines 129-227).  The ledger
timestamp and the PRNG draw are inputs; the PRNG draw is reduced modulo
`cartridge_skin_count` so that it ranges over `0..skin_count` exactly as
`env.prng().gen_range(0..skin_count)` does (an empty range is a panic). -/
def splice_genome (σ : ContractState) (bal : Address → Int) (auths : List Address)
    (user : Address) (ledger_time : Nat) (skinRoll : Nat) :
    Except Err (Nat × ContractState × (Address → Int)) :=
  if user ∉ auths then .error .notAuthorized
  else
    let admin := σ.admin
    let skin_count := σ.cartridgeSkinCount
    if bal user < feeAmount then .error .insufficientBalance
    else
      let admin_balance_before := bal admin
      let bal' := transferBal bal user admin feeAmount
      if bal' admin ≠ admin_balance_before + feeAmount then .error .transferVerificationFailed
      else if skin_count = 0 then .error .prngRangeEmpty
      else
        let skin_id := skinRoll % skin_count
        let drand_genesis := 1692803367
        let drand_period := 3
        let current_round :=
          if ledger_time > drand_genesis then
            (ledger_time - drand_genesis) / drand_period + 1
          else 1
        let splice_round := current_round + 2
        let cartridge_id := σ.nextCartridgeId
        let cartridge : GenomeCartridge :=
          { id := cartridge_id
            owner := user
            skin_id := skin_id
            splice_round := splice_round
            created_at := ledger_time
            finalized := false }
        let σ' :=
          { σ with
            cartridges := fun i => if i = cartridge_id then some cartridge else σ.cartridges i
            userCartridges := fun a =>
              if a = user then σ.userCartridges user ++ [cartridge_id] else σ.userCartridges a
            nextCartridgeId := cartridge_id + 1 }
        .ok (cartridge_id, σ', bal')

/-- Spec-side round formula (spec §4.1): `floor((t-g)/p)+1` if `t>g`,
else `1`, with `g = 1692803367` and `p = 3`. -/
def computeRound (t : Nat) : Nat :=
  if t > 1692803367 then (t - 1692803367) / 3 + 1 else 1

/-- The `splice_round` stored for cartridge `id` in state `σ`, if any. -/
def cartRound (σ : ContractState) (id : Nat) : Option Nat :=
  (σ.cartridges id).map (·.splice_round)

/-- Whether the cartridge `id` exists and is finalized in `σ`. -/
def finalizedAt (σ : ContractState) (id : Nat) : Bool :=
  match σ.cartridges id with
  | some c => c.finalized
  | none => false

/-- Identifier returned by a `splice_genome` call, if it succeeded. -/
def spliceId (r : Except Err (Nat × ContractState × (Address → Int))) : Option Nat :=
  match r with
  | .ok (id, _, _) => some id
  | .error _ => none

/-- The `splice_round` assigned to the cartridge minted by a
`splice_genome` call, if it succeeded. -/
def spliceAssignedRound (r : Except Err (Nat × ContractState × (Address → Int))) :
    Option Nat :=
  match r with
  | .ok (id, σ', _) => cartRound σ' id
  | .error _ => none

/-- Storage keys, mirroring `enum DataKey` (lib.rs lines 55-66); used to
label storage accesses in the event trace. -/
inductive StoreKey
  | admin
  | xlmToken
  | cartridgeSkinCount
  | nextCartridgeId
  | devMode
  | drandPublicKey
  | cartridge (id : Nat)
  | userCartridges (a : Address)
  | creature (id : Nat)
  | userCreatures (a : Address)
deriving DecidableEq, Repr

/-- Cryptographic computations performed by `finalize_splice` /
`verify_drand_signature`, in trace-label form. -/
inductive CryptoStep
  | negateG1
  | g1SubgroupCheck
  | sha256
  | hashToG1
  | g2SubgroupCheck
  | pairingCheck
deriving DecidableEq, Repr

/-- The three fixed-length input guards. -/
inductive LenGuard
  | randomnessLen
  | signatureLen
  | pubKeyLen
deriving DecidableEq, Repr

/-- Trace events recorded by the embedding of `finalize_splice`, in the
order the source performs the corresponding actions. -/
inductive Event
  | storageRead (k : StoreKey)
  | storageWrite (k : StoreKey)
  | lenCheck (g : LenGuard)
  | cryptoOp (c : CryptoStep)
deriving DecidableEq, Repr

/-- The BLS12-381 host functions of the Soroban environment
(`env.crypto().bls12_381()` and `env.crypto().sha256`), abstracted as
oracles over byte encodings: G1 points are their 96-byte uncompressed
encodings, G2 points their 192-byte encodings. -/
structure BlsHost where
  g1IsInSubgroup : List Byte → Bool
  g2IsInSubgroup : List Byte → Bool
  sha256 : List Byte → List Byte
  hashToG1 : List Byte → List Byte → List Byte
  pairingCheck : List (List Byte) → List (List Byte) → Bool

/-- The BLS12-381 base field modulus `p` as written in `negate_g1_bytes`
(lib.rs lines 595-600), 48 big-endian bytes. -/
def blsModulusBytes : List Byte :=
  [0x1a, 0x01, 0x11, 0xea, 0x39, 0x7f, 0xe6, 0x9a, 0x4b, 0x1b, 0xa7, 0xb6, 0x43, 0x4b, 0xac,
   0xd7, 0x64, 0x77, 0x4b, 0x84, 0xf3, 0x85, 0x12, 0xbf, 0x67, 0x30, 0xd2, 0xa0, 0xf6, 0xb0,
   0xf6, 0x24, 0x1e, 0xab, 0xff, 0xfe, 0xb1, 0x53, 0xff, 0xff, 0xb9, 0xfe, 0xff, 0xff, 0xff,
   0xff, 0xaa, 0xab]

/-- One pass of the borrow-propagating byte subtraction loop of
`negate_g1_bytes` (lib.rs lines 603-612), over little-endian digit
lists (the source walks the big-endian arrays from index 47 down to 0).
Each step computes `diff = p_byte.wrapping_sub(y_byte).wrapping_sub(borrow)`
in u16 (`% 65536`), emits `diff & 0xFF` (`% 256`) and carries
`borrow = if diff > 0xFF then 1 else 0`. -/
def subBytesLE : List Nat → List Nat → Nat → List Nat × Nat
  | p :: ps, y :: ys, borrow =>
    let diff := (p + 65536 - y - borrow) % 65536
    let out := diff % 256
    let borrow' := if 255 < diff then 1 else 0
    let rest := subBytesLE ps ys borrow'
    (out :: rest.1, rest.2)
  | _, _, borrow => ([], borrow)

/-- Collect the `n` bytes `bs[start], ..., bs[start+n-1]`, failing (as
the source's `.get(i).unwrap()` panics) when any index is out of range. -/
def collectBytes (bs : List Byte) (start : Nat) : Nat → Option (List Byte)
  | 0 => some []
  | m + 1 => do
    let b ← bs.get? start
    let rest ← collectBytes bs (start + 1) m
    pure (b :: rest)

/-- Embedding of `negate_g1_bytes` (lib.rs lines 581-628): split the
96-byte point into `x` (bytes 0-47) and `y` (bytes 48-95) and return
`x ++ (p - y)` computed by the byte-wise borrow subtraction. -/
def negate_g1_bytes (point_bytes : List Byte) : Option (List Byte) := do
  let x ← collectBytes point_bytes 0 48
  let y ← collectBytes point_bytes 48 48
  let negY := (subBytesLE blsModulusBytes.reverse y.reverse 0).1.reverse
  pure (x ++ negY)

/-- Little-endian base-256 value of a digit list. -/
def leVal : List Nat → Nat
  | [] => 0
  | d :: ds => d + 256 * leVal ds

/-- Big-endian base-256 value of a byte list. -/
def beVal (l : List Byte) : Nat := leVal l.reverse

/-- The 8-byte big-endian encoding of a u64 round number
(`round.to_be_bytes()`, lib.rs line 680). -/
def u64BeBytes (n : Nat) : List Byte :=
  [n >>> 56 % 256, n >>> 48 % 256, n >>> 40 % 256, n >>> 32 % 256,
   n >>> 24 % 256, n >>> 16 % 256, n >>> 8 % 256, n % 256]

/-- ASCII bytes of the drand DST
`BLS_SIG_BLS12381G1_XMD:SHA-256_SSWU_RO_NUL_` (lib.rs line 699). -/
def dstBytes : List Byte :=
  [66, 76, 83, 95, 83, 73, 71, 95, 66, 76, 83, 49, 50, 51, 56, 49, 71, 49, 95, 88, 77, 68,
   58, 83, 72, 65, 45, 50, 53, 54, 95, 83, 83, 87, 85, 95, 82, 79, 95, 78, 85, 76, 95]

/-- The standard BLS12-381 G2 generator, 192 bytes uncompressed in
`x_c1 || x_c0 || y_c1 || y_c0` order (lib.rs lines 740-761). -/
def g2GeneratorBytes : List Byte :=
  [0x13, 0xe0, 0x2b, 0x60, 0x52, 0x71, 0x9f, 0x60, 0x7d, 0xac, 0xd3, 0xa0, 0x88, 0x27,
   0x4f, 0x65, 0x59, 0x6b, 0xd0, 0xd0, 0x99, 0x20, 0xb6, 0x1a, 0xb5, 0xda, 0x61, 0xbb,
   0xdc, 0x7f, 0x50, 0x49, 0x33, 0x4c, 0xf1, 0x12, 0x13, 0x94, 0x5d, 0x57, 0xe5, 0xac,
   0x7d, 0x05, 0x5d, 0x04, 0x2b, 0x7e,
   0x02, 0x4a, 0xa2, 0xb2, 0xf0, 0x8f, 0x0a, 0x91, 0x26, 0x08, 0x05, 0x27, 0x2d, 0xc5,
   0x10, 0x51, 0xc6, 0xe4, 0x7a, 0xd4, 0xfa, 0x40, 0x3b, 0x02, 0xb4, 0x51, 0x0b, 0x64,
   0x7a, 0xe3, 0xd1, 0x77, 0x0b, 0xac, 0x03, 0x26, 0xa8, 0x05, 0xbb, 0xef, 0xd4, 0x80,
   0x56, 0xc8, 0xc1, 0x21, 0xbd, 0xb8,
   0x06, 0x06, 0xc4, 0xa0, 0x2e, 0xa7, 0x34, 0xcc, 0x32, 0xac, 0xd2, 0xb0, 0x2b, 0xc2,
   0x8b, 0x99, 0xcb, 0x3e, 0x28, 0x7e, 0x85, 0xa7, 0x63, 0xaf, 0x26, 0x74, 0x92, 0xab,
   0x57, 0x2e, 0x99, 0xab, 0x3f, 0x37, 0x0d, 0x27, 0x5c, 0xec, 0x1d, 0xa1, 0xaa, 0xa9,
   0x07, 0x5f, 0xf0, 0x5f, 0x79, 0xbe,
   0x0c, 0xe5, 0xd5, 0x27, 0x72, 0x7d, 0x6e, 0x11, 0x8c, 0xc9, 0xcd, 0xc6, 0xda, 0x2e,
   0x35, 0x1a, 0xad, 0xfd, 0x9b, 0xaa, 0x8c, 0xbd, 0xd3, 0xa7, 0x6d, 0x42, 0x9a, 0x69,
   0x51, 0x60, 0xd1, 0x2c, 0x92, 0x3a, 0xc9, 0xcc, 0x3b, 0xac, 0xa2, 0x89, 0xe1, 0x93,
   0x54, 0x86, 0x08, 0xb8, 0x28, 0x01]

/-- Since `G2Affine::to_bytes` is the byte-wise identity on the 192-byte
encoding a `G2Affine` was built from (`G2Affine` wraps its encoding),
so the round-trip comparison at lib.rs lines 727-729 compares the
stored key with itself. -/
def g2RoundTrip (bs : List Byte) : List Byte := bs

/-- Embedding of `verify_drand_signature` (lib.rs lines 656-782).
Returns the verification outcome together with the trace of
length-guard checks, storage reads and cryptographic host calls, in
source order.  The copy of the 32-byte SHA-256 digest into a fresh
`Bytes` (lines 690-694) is the identity on the digest and is not given
its own trace label. -/
def verify_drand_signature (host : BlsHost) (σ : ContractState) (round : Nat)
    (signature : List Byte) : Except Err Unit × List Event :=
  if signature.length ≠ 96 then
    (.error .signatureLength, [.lenCheck .signatureLen])
  else
    match negate_g1_bytes signature with
    | none =>
      (.error .signatureLength, [.lenCheck .signatureLen, .cryptoOp .negateG1])
    | some neg_sig_point =>
      let ev0 : List Event := [.lenCheck .signatureLen, .cryptoOp .negateG1]
      if host.g1IsInSubgroup neg_sig_point = false then
        (.error .sigNotInSubgroup, ev0 ++ [.cryptoOp .g1SubgroupCheck])
      else
        let round_bytes := u64BeBytes round
        let message := host.sha256 round_bytes
        let hashed_point := host.hashToG1 message dstBytes
        let ev1 := ev0 ++ [.cryptoOp .g1SubgroupCheck, .cryptoOp .sha256, .cryptoOp .hashToG1]
        if host.g1IsInSubgroup hashed_point = false then
          (.error .hashedNotInSubgroup, ev1 ++ [.cryptoOp .g1SubgroupCheck])
        else
          let ev2 := ev1 ++ [.cryptoOp .g1SubgroupCheck, .storageRead .drandPublicKey]
          match σ.drandPublicKey with
          | none => (.error .pubKeyNotConfigured, ev2)
          | some drand_pubkey_bytes =>
            if drand_pubkey_bytes.length ≠ 192 then
              (.error .pubKeyLength, ev2 ++ [.lenCheck .pubKeyLen])
            else
              let ev3 := ev2 ++ [.lenCheck .pubKeyLen]
              if g2RoundTrip drand_pubkey_bytes ≠ drand_pubkey_bytes then
                (.error .pubKeyByteOrder, ev3)
              else if host.g2IsInSubgroup drand_pubkey_bytes = false then
                (.error .pubKeyNotInSubgroup, ev3 ++ [.cryptoOp .g2SubgroupCheck])
              else
                let valid := host.pairingCheck [neg_sig_point, hashed_point]
                  [g2GeneratorBytes, drand_pubkey_bytes]
                let ev4 := ev3 ++ [.cryptoOp .g2SubgroupCheck, .cryptoOp .pairingCheck]
                if valid = false then
                  (.error .pairingFailed, ev4)
                else
                  (.ok (), ev4)

/-- Embedding of `finalize_splice` (lib.rs lines 290-388), with the
authorization environment `auths` standing for the set of addresses
that authorized the invocation (`require_auth`), and `now` for
`env.ledger().timestamp()`.  Returns the outcome, the post-state, and
the event trace in source order. -/
def finalize_splice (host : BlsHost) (σ : ContractState) (auths : List Address)
    (cartridge_id round : Nat) (randomness signature : List Byte) (now : Nat) :
    Except Err Nat × ContractState × List Event :=
  let ev0 : List Event := [.storageRead (.cartridge cartridge_id)]
  match σ.cartridges cartridge_id with
  | none => (.error .cartridgeNotFound, σ, ev0)
  | some cartridge =>
    if cartridge.owner ∉ auths then (.error .notAuthorized, σ, ev0)
    else if cartridge.finalized then (.error .alreadyFinalized, σ, ev0)
    else if round ≠ cartridge.splice_round then (.error .roundMismatch, σ, ev0)
    else if randomness.length ≠ 32 then
      (.error .randomnessLength, σ, ev0 ++ [.lenCheck .randomnessLen])
    else if signature.length ≠ 96 then
      (.error .signatureLength, σ, ev0 ++ [.lenCheck .randomnessLen, .lenCheck .signatureLen])
    else
      let ev1 := ev0 ++ [.lenCheck .randomnessLen, .lenCheck .signatureLen,
        .storageRead .devMode]
      let verif : Except Err Unit × List Event :=
        if σ.devMode then (.ok (), []) else verify_drand_signature host σ round signature
      match verif with
      | (.error e, evv) => (.error e, σ, ev1 ++ evv)
      | (.ok _, evv) =>
        let head_gene := select_gene randomness 0
        let torso_gene := select_gene randomness 1
        let legs_gene := select_gene randomness 2
        let creature : Creature :=
          { id := cartridge_id
            owner := cartridge.owner
            skin_id := cartridge.skin_id
            head_gene := head_gene
            torso_gene := torso_gene
            legs_gene := legs_gene
            finalized_at := now
            entropy_round := cartridge.splice_round }
        let cartridge' := { cartridge with finalized := true }
        let σ' :=
          { σ with
            cartridges := fun i => if i = cartridge_id then some cartridge' else σ.cartridges i
            creatures := fun i => if i = cartridge_id then some creature else σ.creatures i
            userCreatures := fun a =>
              if a = cartridge.owner then σ.userCreatures cartridge.owner ++ [cartridge_id]
              else σ.userCreatures a }
        (.ok cartridge_id, σ',
          ev1 ++ evv ++
            [.storageWrite (.cartridge cartridge_id), .storageWrite (.creature cartridge_id),
             .storageRead (.userCreatures cartridge.owner),
             .storageWrite (.userCreatures cartridge.owner)])

/-- Embedding of `set_admin` (lib.rs lines 260-264). -/
def set_admin (σ : ContractState) (auths : List Address) (newAdmin : Address) :
    Except Err ContractState :=
  if σ.admin ∉ auths then .error .notAuthorized
  else .ok { σ with admin := newAdmin }

/-! ### Spec-side definitions (TraitDeriver, §4.3 of the spec) -/

/-- Spec-side value combination: the four bytes at offsets
`(slot*10 + i) mod 32` combined big-endian into an unsigned 32-bit
integer. -/
def specGeneValue (entropy : List Byte) (slot : Nat) : Nat :=
  let b1 := (entropy.get? (slot * 10 % 32)).getD 0
  let b2 := (entropy.get? ((slot * 10 + 1) % 32)).getD 0
  let b3 := (entropy.get? ((slot * 10 + 2) % 32)).getD 0
  let b4 := (entropy.get? ((slot * 10 + 3) % 32)).getD 0
  (b1 * 2 ^ 24 + b2 * 2 ^ 16 + b3 * 2 ^ 8 + b4) % 2 ^ 32

/-- Spec-side trait derivation, written from the claim: `roll = v mod 10`;
`roll == 0` gives Legendary with variant `(v >> 8) mod 3`, `1 ≤ roll ≤ 3`
gives Rare with variant `(v >> 8) mod 3`, `roll ≥ 4` gives Common with
variant `(v >> 8) mod 9`; the gene id is the class's fixed base offset
(Legendary 3, Rare 0, Common 6 — the 3/3/9 layout over the 0-14 id
space) plus the variant. -/
def specSelectGene (entropy : List Byte) (slot : Nat) : Gene :=
  let v := specGeneValue entropy slot
  let roll := v % 10
  if roll = 0 then
    { id := 3 + (v >>> 8) % 3, rarity := .Legendary }
  else if 1 ≤ roll ∧ roll ≤ 3 then
    { id := 0 + (v >>> 8) % 3, rarity := .Rare }
  else
    { id := 6 + (v >>> 8) % 9, rarity := .Normal }

/-- Variant of `select_gene` where the four entropy reads use the raw
offsets `slot*10 + i` without the `% 32` wrap-around and fail instead of
falling back to `unwrap_or(0)`. -/
def select_gene_checked (entropy : List Byte) (slot : Nat) : Option Gene := do
  let byte1 ← entropy.get? (slot * 10)
  let byte2 ← entropy.get? (slot * 10 + 1)
  let byte3 ← entropy.get? (slot * 10 + 2)
  let byte4 ← entropy.get? (slot * 10 + 3)
  let random_value := ((byte1 <<< 24) ||| (byte2 <<< 16) ||| (byte3 <<< 8) ||| byte4) % 2 ^ 32
  let roll := random_value % 10
  pure <|
    if roll = 0 then
      { id := 3 + (random_value >>> 8) % 3, rarity := .Legendary }
    else if roll ≤ 3 then
      { id := (random_value >>> 8) % 3, rarity := .Rare }
    else
      { id := 6 + (random_value >>> 8) % 9, rarity := .Normal }

/-! ### Concrete fixtures used by closed theorems -/

/-- A 192-byte stand-in public key. -/
def pkZero : List Byte := List.replicate 192 0

/-- The state straight after deployment with admin 0, token 1, ten skins
and dev mode on (as in Scenario A of the spec, where verification is not
at issue). -/
def freshState : ContractState :=
  { admin := 0
    xlmToken := 1
    cartridgeSkinCount := 10
    nextCartridgeId := 1
    devMode := true
    drandPublicKey := some pkZero
    cartridges := fun _ => none
    userCartridges := fun _ => []
    creatures := fun _ => none
    userCreatures := fun _ => [] }

/-- A balance map giving every address exactly the 1-XLM fee. -/
def balFresh : Address → Int := fun _ => 10000000

/-- A pending cartridge owned by address 7, bound to round 5. -/
def cart0 : GenomeCartridge :=
  { id := 1, owner := 7, skin_id := 2, splice_round := 5, created_at := 0, finalized := false }

/-- A state holding the single pending cartridge `cart0`, with dev mode
off and a 192-byte public key configured. -/
def state0 : ContractState :=
  { admin := 0
    xlmToken := 1
    cartridgeSkinCount := 10
    nextCartridgeId := 2
    devMode := false
    drandPublicKey := some pkZero
    cartridges := fun i => if i = 1 then some cart0 else none
    userCartridges := fun a => if a = 7 then [1] else []
    creatures := fun _ => none
    userCreatures := fun _ => [] }

/-- A host whose checks all accept — the environment seen by a call
whose inputs the real BLS host accepts. -/
def host0 : BlsHost :=
  { g1IsInSubgroup := fun _ => true
    g2IsInSubgroup := fun _ => true
    sha256 := fun _ => List.replicate 32 0
    hashToG1 := fun _ _ => List.replicate 96 0
    pairingCheck := fun _ _ => true }

/-- A 32-byte randomness value. -/
def rand32 : List Byte := List.replicate 32 66

/-- Value `rand32` with its first byte changed. -/
def rand32alt : List Byte := 67 :: List.replicate 31 66

/-- A 96-byte signature encoding. -/
def sig96 : List Byte := List.replicate 96 17

/-- Cartridge `cart0` after finalization. -/
def cart1fin : GenomeCartridge := { cart0 with finalized := true }

/-- State `state0` with its cartridge already finalized. -/
def state1 : ContractState :=
  { state0 with cartridges := fun i => if i = 1 then some cart1fin else none }

/-- A contract world: the stored state plus the external token
balances. -/
structure World where
  state : ContractState
  bal : Address → Int

/-- The contract's state-changing operations, with the host inputs
(authorizations, timestamps, PRNG draw) that accompany each call. -/
inductive Op
  | spliceOp (auths : List Address) (user time skinRoll : Nat)
  | finalizeOp (auths : List Address) (id round : Nat)
      (randomness signature : List Byte) (now : Nat)
  | setAdminOp (auths : List Address) (newAdmin : Address)

/-- One operation step; a failing operation leaves the world unchanged
(`finalize_splice` returns its post-state, which on error equals the
pre-state). -/
def stepOp (host : BlsHost) (w : World) : Op → World
  | .spliceOp auths user time skinRoll =>
    match splice_genome w.state w.bal auths user time skinRoll with
    | .ok (_, σ', bal') => ⟨σ', bal'⟩
    | .error _ => w
  | .finalizeOp auths id round randomness signature now =>
    ⟨(finalize_splice host w.state auths id round randomness signature now).2.1, w.bal⟩
  | .setAdminOp auths newAdmin =>
    match set_admin w.state auths newAdmin with
    | .ok σ' => ⟨σ', w.bal⟩
    | .error _ => w

/-- Run a sequence of operations from a world. -/
def runOps (host : BlsHost) (w : World) : List Op → World
  | [] => w
  | op :: ops => runOps host (stepOp host w op) ops

/-- States whose stored cartridge ids all lie below the next-id
counter; this holds for every state reachable from deployment. -/
def WFState (σ : ContractState) : Prop :=
  ∀ id, σ.nextCartridgeId ≤ id → σ.cartridges id = none

/-- Events that access contract storage. -/
def isStateAccessEvent : Event → Bool
  | .storageRead _ => true
  | .storageWrite _ => true
  | _ => false

/-- Events that run a cryptographic computation. -/
def isCryptoEvent : Event → Bool
  | .cryptoOp _ => true
  | _ => false

/-- Events that check one of the fixed-length input guards. -/
def isLenCheckEvent : Event → Bool
  | .lenCheck _ => true
  | _ => false

/-- Rendering of claim C2 over a finalize trace: the three length guards
are each checked, and every length-guard check occurs before any
storage access and before any cryptographic computation (that is, no
guard check appears at or after the first access/crypto event). -/
def lengthGuardsFirst (tr : List Event) : Bool :=
  tr.contains (.lenCheck .randomnessLen) && tr.contains (.lenCheck .signatureLen) &&
    tr.contains (.lenCheck .pubKeyLen) &&
    ((tr.dropWhile fun e => !(isStateAccessEvent e || isCryptoEvent e)).all
      fun e => !isLenCheckEvent e)

/-! ### Arithmetic helpers -/

lemma shiftLeft_lor_eq_add (a b n : Nat) (hb : b < 2 ^ n) :
    a <<< n ||| b = a * 2 ^ n + b := by
  apply Nat.eq_of_testBit_eq
  intro i
  rw [Nat.testBit_lor, Nat.testBit_shiftLeft]
  have h2 : a * 2 ^ n + b = 2 ^ n * a + b := by ring
  rw [h2, Nat.testBit_mul_pow_two_add a hb i]
  by_cases h : i < n
  · simp [h, Nat.not_le_of_lt h]
  · have hge : n ≤ i := Nat.le_of_not_lt h
    have hbf : b.testBit i = false :=
      Nat.testBit_lt_two_pow (lt_of_lt_of_le hb (Nat.pow_le_pow_right (by norm_num) hge))
    simp [h, hge, hbf]

lemma combine_bytes_be (b1 b2 b3 b4 : Nat) (_h1 : b1 < 256) (h2 : b2 < 256)
    (h3 : b3 < 256) (h4 : b4 < 256) :
    b1 <<< 24 ||| b2 <<< 16 ||| b3 <<< 8 ||| b4 =
      b1 * 2 ^ 24 + b2 * 2 ^ 16 + b3 * 2 ^ 8 + b4 := by
  rw [Nat.lor_assoc, Nat.lor_assoc]
  rw [shiftLeft_lor_eq_add b3 b4 8 (by omega)]
  rw [shiftLeft_lor_eq_add b2 _ 16 (by omega)]
  rw [shiftLeft_lor_eq_add b1 _ 24 (by omega)]
  ring

lemma getD_lt_256 (l : List Byte) (h : ∀ b ∈ l, b < 256) (i : Nat) :
    (l.get? i).getD 0 < 256 := by
  cases heq : l.get? i with
  | none => simp
  | some b =>
    have : b ∈ l := List.get?_mem heq
    simpa using h b this

lemma gene_if_bridge (v : Nat) :
    (if v % 10 = 0 then ({ id := 3 + v >>> 8 % 3, rarity := .Legendary } : Gene)
     else if v % 10 ≤ 3 then { id := v >>> 8 % 3, rarity := .Rare }
     else { id := 6 + v >>> 8 % 9, rarity := .Normal }) =
    (if v % 10 = 0 then { id := 3 + v >>> 8 % 3, rarity := .Legendary }
     else if 1 ≤ v % 10 ∧ v % 10 ≤ 3 then { id := 0 + v >>> 8 % 3, rarity := .Rare }
     else { id := 6 + v >>> 8 % 9, rarity := .Normal }) := by
  split_ifs with a b c d
  · rfl
  · simp
  · exact absurd ⟨Nat.one_le_iff_ne_zero.mpr a, b⟩ c
  · exact absurd d.2 b
  · rfl

/-! ### Claim C3 — trait derivation -/

/-- Claim C3: for every 32-byte entropy and every slot in 0,1,2,
`select_gene` combines the four bytes at offsets `(slot*10 + i) mod 32`
big-endian into an unsigned 32-bit integer `v`, computes
`roll = v mod 10`, and maps `roll = 0` to a Legendary gene with variant
`(v >>> 8) mod 3`, `1 ≤ roll ≤ 3` to a Rare gene with variant
`(v >>> 8) mod 3`, `roll ≥ 4` to a Common gene with variant
`(v >>> 8) mod 9`, the gene id being the class's fixed base offset
(Legendary 3, Rare 0, Common 6) plus the variant. -/
theorem select_gene_matches_spec (entropy : List Byte) (slot : Nat)
    (_hlen : entropy.length = 32) (hbytes : ∀ b ∈ entropy, b < 256) (_hslot : slot < 3) :
    select_gene entropy slot = specSelectGene entropy slot := by
  have h1 := getD_lt_256 entropy hbytes (slot * 10 % 32)
  have h2 := getD_lt_256 entropy hbytes ((slot * 10 + 1) % 32)
  have h3 := getD_lt_256 entropy hbytes ((slot * 10 + 2) % 32)
  have h4 := getD_lt_256 entropy hbytes ((slot * 10 + 3) % 32)
  simp only [select_gene, specSelectGene, specGeneValue]
  rw [combine_bytes_be _ _ _ _ h1 h2 h3 h4]
  exact gene_if_bridge _

/-- Witness for C3 at a concrete entropy and slot. -/
theorem select_gene_matches_spec_witness :
    select_gene (List.range 32) 1 = specSelectGene (List.range 32) 1 :=
  select_gene_matches_spec (List.range 32) 1 (by decide) (by decide) (by decide)

/-! ### Claim C10 — entropy reads never fall back -/

/-- Claim C10: for every slot in 0,1,2 and every 32-byte entropy, the
four byte indices `(slot*10 + i) mod 32` read by `select_gene` are below
32 and the `mod 32` wrap never fires, every `entropy.get` succeeds, and
`select_gene` agrees with the variant that neither wraps nor uses the
`unwrap_or(0)` fallback. -/
theorem select_gene_offsets_in_range (entropy : List Byte) (slot : Nat)
    (hlen : entropy.length = 32) (hslot : slot < 3) :
    (∀ i, i ≤ 3 → slot * 10 + i < 32 ∧ (slot * 10 + i) % 32 = slot * 10 + i ∧
      (entropy.get? ((slot * 10 + i) % 32)).isSome = true) ∧
    select_gene_checked entropy slot = some (select_gene entropy slot) := by
  have m0 : slot * 10 % 32 = slot * 10 := Nat.mod_eq_of_lt (by omega)
  have m1 : (slot * 10 + 1) % 32 = slot * 10 + 1 := Nat.mod_eq_of_lt (by omega)
  have m2 : (slot * 10 + 2) % 32 = slot * 10 + 2 := Nat.mod_eq_of_lt (by omega)
  have m3 : (slot * 10 + 3) % 32 = slot * 10 + 3 := Nat.mod_eq_of_lt (by omega)
  have g0 := List.get?_eq_get (show slot * 10 < entropy.length by omega)
  have g1 := List.get?_eq_get (show slot * 10 + 1 < entropy.length by omega)
  have g2 := List.get?_eq_get (show slot * 10 + 2 < entropy.length by omega)
  have g3 := List.get?_eq_get (show slot * 10 + 3 < entropy.length by omega)
  constructor
  · intro i hi
    have hlt : slot * 10 + i < 32 := by omega
    refine ⟨hlt, Nat.mod_eq_of_lt hlt, ?_⟩
    rw [Nat.mod_eq_of_lt hlt, List.get?_eq_get (show slot * 10 + i < entropy.length by omega)]
    rfl
  · simp only [List.get?_eq_getElem?] at g0 g1 g2 g3
    simp [select_gene, select_gene_checked, m0, m1, m2, m3, g0, g1, g2, g3]

/-- Witness for C10 at a concrete entropy and slot. -/
theorem select_gene_offsets_in_range_witness :
    (2 * 10 + 3 < 32 ∧ (2 * 10 + 3) % 32 = 2 * 10 + 3 ∧
      ((List.range 32).get? ((2 * 10 + 3) % 32)).isSome = true) ∧
    select_gene_checked (List.range 32) 2 = some (select_gene (List.range 32) 2) :=
  ⟨(select_gene_offsets_in_range (List.range 32) 2 (by decide) (by decide)).1 3 (by decide),
   (select_gene_offsets_in_range (List.range 32) 2 (by decide) (by decide)).2⟩

/-! ### Claims C7 and C8 — round scheduling -/

lemma splice_genome_ok_round (σ : ContractState) (bal : Address → Int)
    (auths : List Address) (user : Address) (t skinRoll : Nat)
    (id : Nat) (σ' : ContractState) (bal' : Address → Int)
    (h : splice_genome σ bal auths user t skinRoll = .ok (id, σ', bal')) :
    cartRound σ' id = some (computeRound t + 2) := by
  simp only [splice_genome] at h
  split_ifs at h with h1 h2 h3 h4 h5
  all_goals
    simp only [Except.ok.injEq, Prod.mk.injEq] at h
    obtain ⟨hid, hσ, -⟩ := h
    subst hid
    subst hσ
    simp [cartRound, computeRound, *]

lemma spliceAssignedRound_eq (σ : ContractState) (bal : Address → Int)
    (auths : List Address) (user : Address) (t skinRoll r : Nat)
    (h : spliceAssignedRound (splice_genome σ bal auths user t skinRoll) = some r) :
    r = computeRound t + 2 := by
  cases heq : splice_genome σ bal auths user t skinRoll with
  | error e => rw [heq] at h; simp [spliceAssignedRound] at h
  | ok x =>
    obtain ⟨id, σ', bal'⟩ := x
    rw [heq] at h
    have hr := splice_genome_ok_round σ bal auths user t skinRoll id σ' bal' heq
    simp only [spliceAssignedRound] at h
    rw [hr] at h
    exact (Option.some_inj.mp h).symm

lemma computeRound_mono {t1 t2 : Nat} (h : t1 ≤ t2) :
    computeRound t1 ≤ computeRound t2 := by
  unfold computeRound
  split_ifs <;> omega

set_option maxRecDepth 4096 in
/-- Claim C7: every successful create stores a cartridge whose
`splice_round` equals `computeRound t + 2` (the current round plus a
margin of at least 2), where `computeRound t = floor((t-g)/p)+1` for
`t > g = 1692803367`, `p = 3`, and 1 otherwise; and in particular a
create at `t = 0` on a freshly constructed contract returns asset id 1
with assigned round `computeRound 0 + 2`. -/
theorem round_scheduling :
    (∀ (σ : ContractState) (bal : Address → Int) (auths : List Address)
      (user t skinRoll r : Nat),
      spliceAssignedRound (splice_genome σ bal auths user t skinRoll) = some r →
      r = computeRound t + 2 ∧ 2 ≤ r - computeRound t) ∧
    constructorState 0 1 10 true pkZero = some freshState ∧
    spliceId (splice_genome freshState balFresh [2] 2 0 4) = some 1 ∧
    spliceAssignedRound (splice_genome freshState balFresh [2] 2 0 4) =
      some (computeRound 0 + 2) := by
  refine ⟨?_, ?_, ?_, ?_⟩
  · intro σ bal auths user t skinRoll r h
    have := spliceAssignedRound_eq σ bal auths user t skinRoll r h
    omega
  · simp [constructorState, pkZero]
    rfl
  · decide
  · decide

/-- Witness for the quantified part of C7 at a concrete create. -/
theorem round_scheduling_witness :
    3 = computeRound 0 + 2 ∧ 2 ≤ 3 - computeRound 0 :=
  round_scheduling.1 freshState balFresh [2] 2 0 4 3 (by decide)

/-- Claim C8: for ledger timestamps `t1 ≤ t2`, the `splice_round`
assigned by a successful create at `t1` is at most the one assigned by a
successful create at `t2`, whatever the rest of the two environments. -/
theorem assign_future_round_monotone
    (σ1 σ2 : ContractState) (bal1 bal2 : Address → Int)
    (auths1 auths2 : List Address) (u1 u2 t1 t2 k1 k2 r1 r2 : Nat)
    (ht : t1 ≤ t2)
    (h1 : spliceAssignedRound (splice_genome σ1 bal1 auths1 u1 t1 k1) = some r1)
    (h2 : spliceAssignedRound (splice_genome σ2 bal2 auths2 u2 t2 k2) = some r2) :
    r1 ≤ r2 := by
  have e1 := spliceAssignedRound_eq σ1 bal1 auths1 u1 t1 k1 r1 h1
  have e2 := spliceAssignedRound_eq σ2 bal2 auths2 u2 t2 k2 r2 h2
  have := computeRound_mono ht
  omega

/-- Witness for C8 at two concrete creates. -/
theorem assign_future_round_monotone_witness :
    spliceAssignedRound (splice_genome freshState balFresh [2] 2 0 4) = some 3 ∧
    spliceAssignedRound (splice_genome freshState balFresh [2] 2 1692803370 4) = some 4 ∧
    (3 : Nat) ≤ 4 :=
  ⟨by decide, by decide,
   assign_future_round_monotone freshState freshState balFresh balFresh [2] [2]
     2 2 0 1692803370 4 4 3 4 (by omega) (by decide) (by decide)⟩

/-! ### Claim C2 — placement of the length guards -/

lemma verify_pairing_pk (host : BlsHost) (σ : ContractState) (round : Nat)
    (sig : List Byte)
    (hmem : Event.cryptoOp .pairingCheck ∈ (verify_drand_signature host σ round sig).2) :
    σ.drandPublicKey.map List.length = some 192 := by
  simp only [verify_drand_signature] at hmem
  split at hmem
  · simp at hmem
  · split at hmem
    · simp at hmem
    · split_ifs at hmem with h1 h2
      · simp at hmem
      · simp at hmem
      · split at hmem
        · simp at hmem
        · rename_i pk heq
          split_ifs at hmem with h3 h4 h5 h6
          · simp at hmem
          · simp at hmem
          · simp at hmem
          · rw [heq]
            simp only [Option.map_some', Option.some.injEq]
            omega
          · rw [heq]
            simp only [Option.map_some', Option.some.injEq]
            omega

lemma finalize_crypto_needs_lengths (host : BlsHost) (σ : ContractState)
    (auths : List Address) (cartridge_id round : Nat)
    (randomness signature : List Byte) (now : Nat) (c : CryptoStep)
    (hmem : Event.cryptoOp c ∈
      (finalize_splice host σ auths cartridge_id round randomness signature now).2.2) :
    randomness.length = 32 ∧ signature.length = 96 := by
  simp only [finalize_splice] at hmem
  split at hmem
  · simp at hmem
  · split_ifs at hmem with h1 h2 h3 h4 h5 h6 <;>
      first
        | (simp at hmem; done)
        | exact ⟨by omega, by omega⟩

lemma finalize_pairing_needs_pk (host : BlsHost) (σ : ContractState)
    (auths : List Address) (cartridge_id round : Nat)
    (randomness signature : List Byte) (now : Nat)
    (hmem : Event.cryptoOp .pairingCheck ∈
      (finalize_splice host σ auths cartridge_id round randomness signature now).2.2) :
    σ.drandPublicKey.map List.length = some 192 := by
  simp only [finalize_splice] at hmem
  split at hmem
  · simp at hmem
  · split_ifs at hmem with h1 h2 h3 h4 h5 h6 <;>
      first
        | (simp at hmem; done)
        | (split at hmem <;>
            (rename_i x evv heq
             simp at hmem
             exact verify_pairing_pk host σ round signature (by rw [heq]; exact hmem)))

lemma finalize_randomness_guard (host : BlsHost) (σ : ContractState)
    (auths : List Address) (cartridge_id round : Nat)
    (randomness signature : List Byte) (now : Nat) (c : GenomeCartridge)
    (hc : σ.cartridges cartridge_id = some c) (hauth : c.owner ∈ auths)
    (hnf : c.finalized = false) (hr : round = c.splice_round)
    (hlen : randomness.length ≠ 32) :
    (finalize_splice host σ auths cartridge_id round randomness signature now).1 =
      .error .randomnessLength := by
  simp only [finalize_splice, hc]
  simp [hauth, hnf, hr, hlen]

lemma finalize_signature_guard (host : BlsHost) (σ : ContractState)
    (auths : List Address) (cartridge_id round : Nat)
    (randomness signature : List Byte) (now : Nat) (c : GenomeCartridge)
    (hc : σ.cartridges cartridge_id = some c) (hauth : c.owner ∈ auths)
    (hnf : c.finalized = false) (hr : round = c.splice_round)
    (hlen : randomness.length = 32) (hsig : signature.length ≠ 96) :
    (finalize_splice host σ auths cartridge_id round randomness signature now).1 =
      .error .signatureLength := by
  simp only [finalize_splice, hc]
  simp [hauth, hnf, hr, hlen, hsig]

/-- Counterexample to claim C2 as stated: a successful finalize call in
which all three length guards are checked, whose very first trace event
is the persistent read of the cartridge — before any length guard — so
the guards are not checked before persistent-state access; the trace
also violates the guards-before-crypto ordering for the public-key
guard. -/
theorem length_guards_not_first :
    (finalize_splice host0 state0 [7] 1 5 rand32 sig96 0).1 = .ok 1 ∧
    (finalize_splice host0 state0 [7] 1 5 rand32 sig96 0).2.2.contains
      (Event.lenCheck .randomnessLen) = true ∧
    (finalize_splice host0 state0 [7] 1 5 rand32 sig96 0).2.2.contains
      (Event.lenCheck .signatureLen) = true ∧
    (finalize_splice host0 state0 [7] 1 5 rand32 sig96 0).2.2.contains
      (Event.lenCheck .pubKeyLen) = true ∧
    (finalize_splice host0 state0 [7] 1 5 rand32 sig96 0).2.2.head? =
      some (Event.storageRead (StoreKey.cartridge 1)) ∧
    lengthGuardsFirst (finalize_splice host0 state0 [7] 1 5 rand32 sig96 0).2.2 = false := by
  set_option maxRecDepth 100000 in decide

/-- Claim C2, amended: the randomness and signature length guards run
after the cartridge is read from persistent storage (and after the
owner, finalized and round guards) but before any cryptographic
computation; the public-key length guard runs inside verification after
the signature subgroup check and hash-to-curve but before the pairing
check, which only ever runs with a configured 192-byte key; each length
failure produces its own distinct error. -/
theorem length_guard_placement :
    (∀ (host : BlsHost) (σ : ContractState) (auths : List Address)
      (cartridge_id round : Nat) (randomness signature : List Byte) (now : Nat)
      (c : CryptoStep),
      Event.cryptoOp c ∈
        (finalize_splice host σ auths cartridge_id round randomness signature now).2.2 →
      randomness.length = 32 ∧ signature.length = 96) ∧
    (∀ (host : BlsHost) (σ : ContractState) (auths : List Address)
      (cartridge_id round : Nat) (randomness signature : List Byte) (now : Nat),
      Event.cryptoOp .pairingCheck ∈
        (finalize_splice host σ auths cartridge_id round randomness signature now).2.2 →
      σ.drandPublicKey.map List.length = some 192) ∧
    (∀ (host : BlsHost) (σ : ContractState) (auths : List Address)
      (cartridge_id round : Nat) (randomness signature : List Byte) (now : Nat)
      (c : GenomeCartridge),
      σ.cartridges cartridge_id = some c → c.owner ∈ auths → c.finalized = false →
      round = c.splice_round → randomness.length ≠ 32 →
      (finalize_splice host σ auths cartridge_id round randomness signature now).1 =
        .error .randomnessLength) ∧
    (∀ (host : BlsHost) (σ : ContractState) (auths : List Address)
      (cartridge_id round : Nat) (randomness signature : List Byte) (now : Nat)
      (c : GenomeCartridge),
      σ.cartridges cartridge_id = some c → c.owner ∈ auths → c.finalized = false →
      round = c.splice_round → randomness.length = 32 → signature.length ≠ 96 →
      (finalize_splice host σ auths cartridge_id round randomness signature now).1 =
        .error .signatureLength) ∧
    (Err.randomnessLength ≠ Err.signatureLength ∧
      Err.randomnessLength ≠ Err.pubKeyLength ∧
      Err.signatureLength ≠ Err.pubKeyLength) :=
  ⟨finalize_crypto_needs_lengths, finalize_pairing_needs_pk,
   finalize_randomness_guard, finalize_signature_guard,
   by decide, by decide, by decide⟩

/-- Witness for the amended C2 at concrete failing lengths. -/
theorem length_guard_placement_witness :
    (finalize_splice host0 state0 [7] 1 5 (List.replicate 31 66) sig96 0).1 =
      .error .randomnessLength ∧
    (finalize_splice host0 state0 [7] 1 5 rand32 (List.replicate 95 17) 0).1 =
      .error .signatureLength :=
  ⟨length_guard_placement.2.2.1 host0 state0 [7] 1 5 (List.replicate 31 66) sig96 0 cart0
     (by decide) (by decide) (by decide) (by decide) (by decide),
   length_guard_placement.2.2.2.1 host0 state0 [7] 1 5 rand32 (List.replicate 95 17) 0 cart0
     (by decide) (by decide) (by decide) (by decide) (by decide) (by decide)⟩

/-! ### Claim C1 — verification never reads the randomness -/

/-- Claim C1, evaluated at a failing input: the signature verification
performed during finalize never reads the randomness (it hashes only
the round number), so with a host that accepts the supplied signature
for the assigned round — the genuinely-signed case — finalize succeeds
both with `rand32` and with `rand32alt`, which differs from `rand32` in
exactly its first byte; the pairing check genuinely ran in both calls.
The spec's demand that flipping a randomness byte make verification
fail is therefore violated by the code. -/
theorem finalize_accepts_flipped_randomness :
    rand32alt = rand32.set 0 67 ∧
    rand32 ≠ rand32alt ∧
    rand32.length = 32 ∧ rand32alt.length = 32 ∧
    (finalize_splice host0 state0 [7] 1 5 rand32 sig96 0).1 = .ok 1 ∧
    (finalize_splice host0 state0 [7] 1 5 rand32alt sig96 0).1 = .ok 1 ∧
    Event.cryptoOp .pairingCheck ∈
      (finalize_splice host0 state0 [7] 1 5 rand32 sig96 0).2.2 ∧
    Event.cryptoOp .pairingCheck ∈
      (finalize_splice host0 state0 [7] 1 5 rand32alt sig96 0).2.2 := by
  set_option maxRecDepth 100000 in decide

/-! ### Claim C4 — single finalization -/

lemma finalize_guard_already (host : BlsHost) (σ : ContractState)
    (auths : List Address) (cartridge_id round : Nat)
    (randomness signature : List Byte) (now : Nat) (c : GenomeCartridge)
    (hc : σ.cartridges cartridge_id = some c) (hauth : c.owner ∈ auths)
    (hf : c.finalized = true) :
    (finalize_splice host σ auths cartridge_id round randomness signature now).1 =
      .error .alreadyFinalized := by
  simp only [finalize_splice, hc]
  simp [hauth, hf]

lemma finalize_no_ok_of_finalized (host : BlsHost) (σ : ContractState)
    (auths : List Address) (cartridge_id round : Nat)
    (randomness signature : List Byte) (now : Nat) (r : Nat)
    (hf : finalizedAt σ cartridge_id = true) :
    (finalize_splice host σ auths cartridge_id round randomness signature now).1 ≠
      .ok r := by
  unfold finalizedAt at hf
  intro hok
  cases hc : σ.cartridges cartridge_id with
  | none => rw [hc] at hf; exact Bool.noConfusion hf
  | some c =>
    rw [hc] at hf
    simp only [finalize_splice, hc] at hok
    split_ifs at hok

lemma finalize_splice_shape (host : BlsHost) (σ : ContractState)
    (auths : List Address) (cartridge_id round : Nat)
    (randomness signature : List Byte) (now : Nat) :
    ((finalize_splice host σ auths cartridge_id round randomness signature now).1 =
        .ok cartridge_id ∧
      (finalize_splice host σ auths cartridge_id round randomness signature now).2.1.nextCartridgeId =
        σ.nextCartridgeId ∧
      finalizedAt
        (finalize_splice host σ auths cartridge_id round randomness signature now).2.1
        cartridge_id = true ∧
      (σ.cartridges cartridge_id).isSome = true ∧
      (∀ j, j ≠ cartridge_id →
        (finalize_splice host σ auths cartridge_id round randomness signature now).2.1.cartridges j =
          σ.cartridges j)) ∨
    ((finalize_splice host σ auths cartridge_id round randomness signature now).2.1 = σ ∧
      ∀ r, (finalize_splice host σ auths cartridge_id round randomness signature now).1 ≠
        .ok r) := by
  simp only [finalize_splice]
  split
  · right
    exact ⟨rfl, fun r h => Except.noConfusion h⟩
  · rename_i cart heq
    split_ifs <;>
      first
        | exact Or.inr ⟨rfl, fun r h => Except.noConfusion h⟩
        | exact Or.inl ⟨rfl, rfl, by simp [finalizedAt], by rw [heq]; rfl,
            fun j hj => by simp [hj]⟩
        | (split <;>
            first
              | exact Or.inr ⟨rfl, fun r h => Except.noConfusion h⟩
              | exact Or.inl ⟨rfl, rfl, by simp [finalizedAt], by rw [heq]; rfl,
                  fun j hj => by simp [hj]⟩)

lemma splice_genome_ok_shape (σ : ContractState) (bal : Address → Int)
    (auths : List Address) (user : Address) (t skinRoll : Nat)
    (nid : Nat) (σ' : ContractState) (bal' : Address → Int)
    (h : splice_genome σ bal auths user t skinRoll = .ok (nid, σ', bal')) :
    nid = σ.nextCartridgeId ∧
    σ'.nextCartridgeId = σ.nextCartridgeId + 1 ∧
    (∀ j, j ≠ nid → σ'.cartridges j = σ.cartridges j) := by
  simp only [splice_genome] at h
  split_ifs at h
  all_goals
    simp only [Except.ok.injEq, Prod.mk.injEq] at h
    obtain ⟨hid, hσ, -⟩ := h
    subst hid
    subst hσ
    exact ⟨rfl, rfl, fun j hj => by simp [hj]⟩

lemma stepOp_WF (host : BlsHost) (w : World) (op : Op)
    (hWF : WFState w.state) : WFState (stepOp host w op).state := by
  cases op with
  | spliceOp auths user time skinRoll =>
    cases hs : splice_genome w.state w.bal auths user time skinRoll with
    | error e => simpa [stepOp, hs] using hWF
    | ok x =>
      obtain ⟨nid, σ', bal'⟩ := x
      obtain ⟨hid, hnext, hother⟩ :=
        splice_genome_ok_shape w.state w.bal auths user time skinRoll nid σ' bal' hs
      intro j hj
      simp only [stepOp, hs] at hj ⊢
      rw [hother j (by omega)]
      exact hWF j (by omega)
  | finalizeOp auths id round randomness signature now =>
    rcases finalize_splice_shape host w.state auths id round randomness signature now with
      ⟨-, hnext, -, hsome, hother⟩ | ⟨hst, -⟩
    · intro j hj
      simp only [stepOp] at hj ⊢
      by_cases hji : j = id
      · subst hji
        exfalso
        rw [hWF j (by omega)] at hsome
        exact Bool.noConfusion hsome
      · rw [hother j hji]
        exact hWF j (by omega)
    · intro j hj
      simp only [stepOp] at hj ⊢
      rw [hst]
      rw [hst] at hj
      exact hWF j hj
  | setAdminOp auths newAdmin =>
    simp only [stepOp, set_admin]
    split_ifs
    · exact hWF
    · intro j hj
      exact hWF j hj

lemma stepOp_finalized_mono (host : BlsHost) (w : World) (op : Op) (id : Nat)
    (hWF : WFState w.state) (hf : finalizedAt w.state id = true) :
    finalizedAt (stepOp host w op).state id = true := by
  cases op with
  | spliceOp auths user time skinRoll =>
    cases hs : splice_genome w.state w.bal auths user time skinRoll with
    | error e => simpa [stepOp, hs] using hf
    | ok x =>
      obtain ⟨nid, σ', bal'⟩ := x
      obtain ⟨hid, hnext, hother⟩ :=
        splice_genome_ok_shape w.state w.bal auths user time skinRoll nid σ' bal' hs
      have hidnone : w.state.cartridges nid = none := hWF nid (by omega)
      have hne : id ≠ nid := by
        intro hcontra
        rw [hcontra] at hf
        unfold finalizedAt at hf
        rw [hidnone] at hf
        exact Bool.noConfusion hf
      simp only [stepOp, hs]
      unfold finalizedAt at hf ⊢
      rw [hother id hne]
      exact hf
  | finalizeOp auths id' round randomness signature now =>
    rcases finalize_splice_shape host w.state auths id' round randomness signature now with
      ⟨-, -, hfin, -, hother⟩ | ⟨hst, -⟩
    · simp only [stepOp]
      by_cases hji : id = id'
      · subst hji
        exact hfin
      · unfold finalizedAt at hf ⊢
        rw [hother id hji]
        exact hf
    · simp only [stepOp]
      rw [hst]
      exact hf
  | setAdminOp auths newAdmin =>
    simp only [stepOp, set_admin]
    split_ifs
    · exact hf
    · exact hf

lemma runOps_finalized_mono (host : BlsHost) :
    ∀ (ops : List Op) (w : World) (id : Nat), WFState w.state →
    finalizedAt w.state id = true →
    finalizedAt (runOps host w ops).state id = true := by
  intro ops
  induction ops with
  | nil => intro w id _ hf; exact hf
  | cons op ops ih =>
    intro w id hWF hf
    exact ih (stepOp host w op) id (stepOp_WF host w op hWF)
      (stepOp_finalized_mono host w op id hWF hf)

/-- Claim C4: finalize succeeds at most once per cartridge id — an
already-finalized cartridge makes every authorized finalize call fail
with the already-finalized error and every call (authorized or not)
fail outright; a successful finalize leaves the id finalized; and over
any sequence of operations from a well-formed state the finalized flag
never reverts from true to false. -/
theorem finalize_single_finalization :
    (∀ (host : BlsHost) (σ : ContractState) (auths : List Address)
      (cartridge_id round : Nat) (randomness signature : List Byte) (now : Nat)
      (c : GenomeCartridge),
      σ.cartridges cartridge_id = some c → c.owner ∈ auths → c.finalized = true →
      (finalize_splice host σ auths cartridge_id round randomness signature now).1 =
        .error .alreadyFinalized) ∧
    (∀ (host : BlsHost) (σ : ContractState) (auths : List Address)
      (cartridge_id round : Nat) (randomness signature : List Byte) (now : Nat)
      (r : Nat),
      finalizedAt σ cartridge_id = true →
      (finalize_splice host σ auths cartridge_id round randomness signature now).1 ≠
        .ok r) ∧
    (∀ (host : BlsHost) (σ : ContractState) (auths : List Address)
      (cartridge_id round : Nat) (randomness signature : List Byte) (now : Nat)
      (r : Nat),
      (finalize_splice host σ auths cartridge_id round randomness signature now).1 =
        .ok r →
      finalizedAt
        (finalize_splice host σ auths cartridge_id round randomness signature now).2.1
        cartridge_id = true) ∧
    (∀ (host : BlsHost) (w : World) (ops : List Op) (id : Nat),
      WFState w.state → finalizedAt w.state id = true →
      finalizedAt (runOps host w ops).state id = true) := by
  refine ⟨finalize_guard_already, ?_, ?_, ?_⟩
  · intro host σ auths cartridge_id round randomness signature now r hf
    exact finalize_no_ok_of_finalized host σ auths cartridge_id round randomness signature
      now r hf
  · intro host σ auths cartridge_id round randomness signature now r hok
    rcases finalize_splice_shape host σ auths cartridge_id round randomness signature now with
      ⟨-, -, hfin, -, -⟩ | ⟨-, hnone⟩
    · exact hfin
    · exact absurd hok (hnone r)
  · intro host w ops id hWF hf
    exact runOps_finalized_mono host ops w id hWF hf

lemma WFState_state1 : WFState state1 := by
  intro id hid
  have h2 : state1.nextCartridgeId = 2 := rfl
  rw [h2] at hid
  show (if id = 1 then some cart1fin else none) = none
  rw [if_neg (by omega)]

/-- Witness for C4 at concrete states and operation sequences. -/
theorem finalize_single_finalization_witness :
    (finalize_splice host0 state1 [7] 1 5 rand32 sig96 0).1 = .error .alreadyFinalized ∧
    (finalize_splice host0 state1 [7] 1 5 rand32 sig96 0).1 ≠ .ok 1 ∧
    finalizedAt (finalize_splice host0 state0 [7] 1 5 rand32 sig96 0).2.1 1 = true ∧
    finalizedAt (runOps host0 ⟨state1, balFresh⟩ [Op.spliceOp [2] 2 0 4]).state 1 = true :=
  ⟨finalize_single_finalization.1 host0 state1 [7] 1 5 rand32 sig96 0 cart1fin
     (by decide) (by decide) (by decide),
   finalize_single_finalization.2.1 host0 state1 [7] 1 5 rand32 sig96 0 1 (by decide),
   finalize_single_finalization.2.2.1 host0 state0 [7] 1 5 rand32 sig96 0 1
     (by set_option maxRecDepth 100000 in decide),
   finalize_single_finalization.2.2.2 host0 ⟨state1, balFresh⟩ [Op.spliceOp [2] 2 0 4] 1
     WFState_state1 (by decide)⟩

/-! ### Claim C9 — G1 negation arithmetic -/

lemma leVal_lt_of_bytes (l : List Nat) (h : ∀ d ∈ l, d < 256) :
    leVal l < 256 ^ l.length := by
  induction l with
  | nil => simp [leVal]
  | cons d ds ih =>
    have hd : d < 256 := h d (by simp)
    have ihh := ih fun x hx => h x (by simp [hx])
    simp only [leVal, List.length_cons, pow_succ]
    generalize 256 ^ ds.length = K at ihh ⊢
    omega

lemma subBytesLE_spec (ps : List Nat) : ∀ (ys : List Nat) (b : Nat),
    ps.length = ys.length → b ≤ 1 →
    (∀ d ∈ ps, d < 256) → (∀ d ∈ ys, d < 256) →
    (subBytesLE ps ys b).1.length = ps.length ∧
    (∀ d ∈ (subBytesLE ps ys b).1, d < 256) ∧
    (subBytesLE ps ys b).2 ≤ 1 ∧
    leVal (subBytesLE ps ys b).1 + leVal ys + b =
      leVal ps + (subBytesLE ps ys b).2 * 256 ^ ps.length := by
  induction ps with
  | nil =>
    intro ys b hlen hb _ _
    have hys : ys = [] := List.length_eq_zero.mp hlen.symm
    subst hys
    refine ⟨rfl, by simp [subBytesLE], by simpa [subBytesLE] using hb, ?_⟩
    simp [subBytesLE, leVal]
  | cons p ps ih =>
    intro ys b hlen hb hp hy
    cases ys with
    | nil => simp at hlen
    | cons y ys' =>
      have hlen' : ps.length = ys'.length := by simpa using hlen
      have hplt : p < 256 := hp p (by simp)
      have hylt : y < 256 := hy y (by simp)
      have hps : ∀ d ∈ ps, d < 256 := fun d hd => hp d (by simp [hd])
      have hys : ∀ d ∈ ys', d < 256 := fun d hd => hy d (by simp [hd])
      simp only [subBytesLE]
      by_cases hd : 255 < (p + 65536 - y - b) % 65536 <;>
        simp only [hd, if_true, if_false, ite_true, ite_false]
      · obtain ⟨ihlen, ihbound, ihcarry, iheq⟩ := ih ys' 1 hlen' (by omega) hps hys
        refine ⟨by simpa using ihlen, ?_, ihcarry, ?_⟩
        · intro d hdm
          rcases List.mem_cons.mp hdm with h | h
          · subst h; omega
          · exact ihbound d h
        · simp only [leVal, List.length_cons, pow_succ]
          have hmul : (subBytesLE ps ys' 1).2 * (256 ^ ps.length * 256) =
              (subBytesLE ps ys' 1).2 * 256 ^ ps.length * 256 := by ring
          rw [hmul]
          generalize (subBytesLE ps ys' 1).2 * 256 ^ ps.length = M at iheq ⊢
          omega
      · obtain ⟨ihlen, ihbound, ihcarry, iheq⟩ := ih ys' 0 hlen' (by omega) hps hys
        refine ⟨by simpa using ihlen, ?_, ihcarry, ?_⟩
        · intro d hdm
          rcases List.mem_cons.mp hdm with h | h
          · subst h; omega
          · exact ihbound d h
        · simp only [leVal, List.length_cons, pow_succ]
          have hmul : (subBytesLE ps ys' 0).2 * (256 ^ ps.length * 256) =
              (subBytesLE ps ys' 0).2 * 256 ^ ps.length * 256 := by ring
          rw [hmul]
          generalize (subBytesLE ps ys' 0).2 * 256 ^ ps.length = M at iheq ⊢
          omega

lemma collectBytes_eq_drop_take (l : List Byte) :
    ∀ (n s : Nat), s + n ≤ l.length →
    collectBytes l s n = some ((l.drop s).take n) := by
  intro n
  induction n with
  | zero => intro s _; simp [collectBytes]
  | succ m ih =>
    intro s h
    have hs : s < l.length := by omega
    have ih' := ih (s + 1) (by omega)
    simp only [collectBytes, List.get?_eq_get hs, ih', Option.some_bind]
    rw [List.drop_eq_getElem_cons hs, List.take_succ_cons]
    simp [List.get_eq_getElem]

/-- Claim C9: for every 96-byte input `x ‖ y` whose 48-byte big-endian
`y` satisfies `y ≤ p` (the BLS12-381 base field modulus),
`negate_g1_bytes` returns the 96-byte value `x ‖ (p - y)`: the
byte-wise borrow subtraction equals the exact integer difference
`p - y` encoded big-endian, and the x-coordinate is unchanged. -/
theorem negate_g1_bytes_correct (pt : List Byte)
    (hlen : pt.length = 96) (hbytes : ∀ b ∈ pt, b < 256)
    (hy : beVal (pt.drop 48) ≤ beVal blsModulusBytes) :
    (negate_g1_bytes pt).map (List.take 48) = some (pt.take 48) ∧
    (negate_g1_bytes pt).map List.length = some 96 ∧
    (negate_g1_bytes pt).map (fun l => beVal (l.drop 48)) =
      some (beVal blsModulusBytes - beVal (pt.drop 48)) ∧
    beVal (pt.drop 48) + (beVal blsModulusBytes - beVal (pt.drop 48)) =
      beVal blsModulusBytes ∧
    beVal blsModulusBytes =
      4002409555221667393417789825735904156556882819939007885332058136124031650490837864442687629129015664037894272559787 := by
  have hc1 : collectBytes pt 0 48 = some ((pt.drop 0).take 48) :=
    collectBytes_eq_drop_take pt 48 0 (by omega)
  have hc2 : collectBytes pt 48 48 = some ((pt.drop 48).take 48) :=
    collectBytes_eq_drop_take pt 48 48 (by omega)
  have hdt : (pt.drop 48).take 48 = pt.drop 48 :=
    List.take_of_length_le (by simp [hlen])
  have hneg : negate_g1_bytes pt =
      some (pt.take 48 ++ (subBytesLE blsModulusBytes.reverse (pt.drop 48).reverse 0).1.reverse) := by
    rw [hdt] at hc2
    simp [negate_g1_bytes, hc1, hc2]
  have hplen : (blsModulusBytes.reverse).length = 48 := rfl
  have hylen : ((pt.drop 48).reverse).length = 48 := by simp [hlen]
  have hpb : ∀ d ∈ blsModulusBytes.reverse, d < 256 := by decide
  have hyb : ∀ d ∈ (pt.drop 48).reverse, d < 256 := fun d hd =>
    hbytes d (List.mem_of_mem_drop (List.mem_reverse.mp hd))
  obtain ⟨hslen, hsb, hscarry, hseq⟩ :=
    subBytesLE_spec blsModulusBytes.reverse (pt.drop 48).reverse 0
      (by rw [hplen, hylen]) (by omega) hpb hyb
  have houtlt :
      leVal (subBytesLE blsModulusBytes.reverse (pt.drop 48).reverse 0).1 < 256 ^ 48 := by
    have := leVal_lt_of_bytes _ hsb
    rwa [hslen, hplen] at this
  have hbey : beVal (pt.drop 48) = leVal (pt.drop 48).reverse := rfl
  have hbep : beVal blsModulusBytes = leVal blsModulusBytes.reverse := rfl
  have hc0 : (subBytesLE blsModulusBytes.reverse (pt.drop 48).reverse 0).2 = 0 := by
    rcases (by omega :
        (subBytesLE blsModulusBytes.reverse (pt.drop 48).reverse 0).2 = 0 ∨
        (subBytesLE blsModulusBytes.reverse (pt.drop 48).reverse 0).2 = 1) with h | h
    · exact h
    · exfalso
      rw [h, hplen] at hseq
      rw [hbey, hbep] at hy
      omega
  rw [hc0, hplen] at hseq
  have hval : beVal (subBytesLE blsModulusBytes.reverse (pt.drop 48).reverse 0).1.reverse =
      beVal blsModulusBytes - beVal (pt.drop 48) := by
    rw [hbey, hbep] at hy ⊢
    simp only [beVal, List.reverse_reverse]
    omega
  have htklen : (pt.take 48).length = 48 := by simp [hlen]
  have houtrevlen :
      ((subBytesLE blsModulusBytes.reverse (pt.drop 48).reverse 0).1.reverse).length = 48 := by
    rw [List.length_reverse, hslen, hplen]
  refine ⟨?_, ?_, ?_, Nat.add_sub_cancel' hy, by decide⟩
  · rw [hneg]
    simp only [Option.map_some']
    rw [List.take_left' htklen]
  · rw [hneg]
    simp only [Option.map_some']
    rw [List.length_append, htklen, houtrevlen]
  · rw [hneg]
    simp only [Option.map_some']
    rw [List.drop_left' htklen, hval]

/-! ### Claims C5 and C6 — round binding and atomicity -/

lemma finalize_splice_state_cases (host : BlsHost) (σ : ContractState)
    (auths : List Address) (cartridge_id round : Nat)
    (randomness signature : List Byte) (now : Nat) :
    (finalize_splice host σ auths cartridge_id round randomness signature now).2.1 = σ ∨
    (finalize_splice host σ auths cartridge_id round randomness signature now).1 =
      .ok cartridge_id := by
  simp only [finalize_splice]
  split
  · left; rfl
  · split_ifs <;>
      first
        | (left; rfl)
        | (right; rfl)
        | (split <;> first | (left; rfl) | (right; rfl))

lemma finalize_splice_error_state (host : BlsHost) (σ : ContractState)
    (auths : List Address) (cartridge_id round : Nat)
    (randomness signature : List Byte) (now : Nat) (e : Err)
    (h : (finalize_splice host σ auths cartridge_id round randomness signature now).1 =
      .error e) :
    (finalize_splice host σ auths cartridge_id round randomness signature now).2.1 = σ := by
  rcases finalize_splice_state_cases host σ auths cartridge_id round randomness signature now
    with hs | hok
  · exact hs
  · rw [hok] at h
    exact Except.noConfusion h

/-- Claim C6: every failing finalize call leaves the persistent state —
cartridges, creatures, user index lists and counters — exactly as it
was before the call. -/
theorem finalize_atomic_on_error (host : BlsHost) (σ : ContractState)
    (auths : List Address) (cartridge_id round : Nat)
    (randomness signature : List Byte) (now : Nat) (e : Err)
    (h : (finalize_splice host σ auths cartridge_id round randomness signature now).1 =
      .error e) :
    (finalize_splice host σ auths cartridge_id round randomness signature now).2.1 = σ :=
  finalize_splice_error_state host σ auths cartridge_id round randomness signature now e h

/-- Witness for C6 at a concrete failing call (unknown cartridge id). -/
theorem finalize_atomic_on_error_witness :
    (finalize_splice host0 state0 [7] 99 5 rand32 sig96 0).2.1 = state0 :=
  finalize_atomic_on_error host0 state0 [7] 99 5 rand32 sig96 0 .cartridgeNotFound (by decide)

/-- Claim C5: finalizing an existing, not-yet-finalized cartridge with a
round different from its assigned `splice_round` fails with the
round-mismatch error, for every host environment and signature — the
signature's own validity is never consulted. -/
theorem round_binding (host : BlsHost) (σ : ContractState) (auths : List Address)
    (cartridge_id round : Nat) (randomness signature : List Byte) (now : Nat)
    (c : GenomeCartridge) (hc : σ.cartridges cartridge_id = some c)
    (hauth : c.owner ∈ auths) (hnf : c.finalized = false)
    (hr : round ≠ c.splice_round) :
    (finalize_splice host σ auths cartridge_id round randomness signature now).1 =
      .error .roundMismatch := by
  simp only [finalize_splice, hc]
  simp [hauth, hnf, hr]

/-- Witness for C5 at a concrete mismatched round. -/
theorem round_binding_witness :
    (finalize_splice host0 state0 [7] 1 6 rand32 sig96 0).1 = .error .roundMismatch :=
  round_binding host0 state0 [7] 1 6 rand32 sig96 0 cart0 (by decide) (by decide)
    (by decide) (by decide)

/-- Witness for C9 at a concrete 96-byte point. -/
theorem negate_g1_bytes_correct_witness :
    (negate_g1_bytes (List.replicate 48 170 ++ List.replicate 48 1)).map (List.take 48) =
      some ((List.replicate 48 170 ++ List.replicate 48 1).take 48) ∧
    (negate_g1_bytes (List.replicate 48 170 ++ List.replicate 48 1)).map List.length =
      some 96 ∧
    (negate_g1_bytes (List.replicate 48 170 ++ List.replicate 48 1)).map
        (fun l => beVal (l.drop 48)) =
      some (beVal blsModulusBytes -
        beVal ((List.replicate 48 170 ++ List.replicate 48 1).drop 48)) ∧
    beVal ((List.replicate 48 170 ++ List.replicate 48 1).drop 48) +
        (beVal blsModulusBytes -
          beVal ((List.replicate 48 170 ++ List.replicate 48 1).drop 48)) =
      beVal blsModulusBytes ∧
    beVal blsModulusBytes =
      4002409555221667393417789825735904156556882819939007885332058136124031650490837864442687629129015664037894272559787 :=
  negate_g1_bytes_correct (List.replicate 48 170 ++ List.replicate 48 1)
    (by decide) (by decide) (by decide)

end Splicers
